import Mathlib

/-!
Verification of the CTrack workflow & sprint lifecycle engine.

Shallow embedding of the service layer of the repository:
* `apps/issues/services.py` — workflow engine (`can_transition`,
  `get_available_transitions`, `execute_transition`, `update_issue_sprint`)
  and the activity log writer;
* `apps/sprints/services.py` — sprint lifecycle (`start_sprint`,
  `complete_sprint`) and analytics (`get_burndown`);
* `api/issues/workflow.py` — the HTTP endpoint wrapper for transitions;
* `api/events.py` — the SSE live-update gateway loop.

Django querysets over the database are modelled as lists held in a `DB`
record; `transaction.atomic` is modelled by the `Except` result: a function
that raises returns `.error` and the caller keeps the pre-call state.
UUIDs are modelled as `Nat` identifiers, dates as `Int` day numbers, and
roles as the strings used by `ProjectRole`.
-/

namespace CTrack

/-- Coarse status bucket, `StatusCategory` in `apps/issues/models.py`. -/
inductive StatusCategory where
  | todo
  | inProgress
  | done
deriving DecidableEq, Repr

/-- `Status` model (relevant fields): project-scoped or global named status. -/
structure Status where
  id : Nat
  project_id : Option Nat
  name : String
  category : StatusCategory
deriving DecidableEq, Repr

/-- `WorkflowTransition` model: a role-gated edge between two statuses of a
project.  `allowed_roles` is the JSON list of role strings; empty means any
member may execute. -/
structure WorkflowTransition where
  id : Nat
  project_id : Nat
  from_status_id : Nat
  to_status_id : Nat
  name : String
  allowed_roles : List String
deriving DecidableEq, Repr

/-- `Issue` model, restricted to the fields the workflow and sprint engines
touch. -/
structure Issue where
  id : Nat
  project_id : Nat
  status_id : Nat
  sprint_id : Option Nat
  story_points : Option Nat
deriving DecidableEq, Repr

/-- `SprintStatus` choices in `apps/sprints/models.py`. -/
inductive SprintStatus where
  | planned
  | active
  | completed
deriving DecidableEq, Repr

/-- `Sprint` model (relevant fields).  Dates are day numbers. -/
structure Sprint where
  id : Nat
  project_id : Nat
  name : String
  start_date : Int
  end_date : Int
  status : SprintStatus
  initial_story_points : Option Nat
  completed_story_points : Option Nat
deriving DecidableEq, Repr

/-- `ProjectMembership` model: links a user to a project with a role string
(`admin` / `manager` / `developer` / `viewer`). -/
structure ProjectMembership where
  project_id : Nat
  user_id : Nat
  role : String
deriving DecidableEq, Repr

/-- `ProjectMembership.can_edit`: every role except viewer may edit issues. -/
def ProjectMembership.can_edit (m : ProjectMembership) : Bool :=
  m.role != "viewer"

/-- `IssueActivity` row (`ActivityRecord` of the spec): append-only audit
entry.  Old/new values for a status change are `{name, category}` pairs. -/
structure ActivityRecord where
  issue_id : Nat
  user_id : Option Nat
  action : String
  field_name : String
  old_value : Option (String × Option String)
  new_value : Option (String × Option String)
deriving DecidableEq, Repr

/-- Ephemeral broker event published on a project channel
(`apps/core/events.py`). -/
structure Event where
  type : String
  project_id : Nat
  payload : List (String × String)
deriving DecidableEq, Repr

/-- The persisted state visible to the service layer: one list per table,
plus the published event stream. -/
structure DB where
  statuses : List Status
  transitions : List WorkflowTransition
  issues : List Issue
  sprints : List Sprint
  memberships : List ProjectMembership
  activities : List ActivityRecord
  events : List Event
deriving DecidableEq, Repr

/-- `ProjectMembership.objects.filter(project=…, user=…).first()`. -/
def findMembership (db : DB) (pid uid : Nat) : Option ProjectMembership :=
  db.memberships.find? (fun m => m.project_id == pid && m.user_id == uid)

/-- The actor's role in a project, `membership.role if membership else None`. -/
def userRole (db : DB) (pid uid : Nat) : Option String :=
  (findMembership db pid uid).map (fun m => m.role)

/-- `issue.save()`: replace the row with the same id. -/
def saveIssue (db : DB) (issue : Issue) : DB :=
  { db with issues := db.issues.map (fun i => if i.id == issue.id then issue else i) }

/-- `sprint.save()`: replace the row with the same id. -/
def saveSprint (db : DB) (sprint : Sprint) : DB :=
  { db with sprints := db.sprints.map (fun s => if s.id == sprint.id then sprint else s) }

/-- `Sprint.objects.filter(id=…).first()` / `.get(id=…)` lookup. -/
def sprintById (db : DB) (sid : Nat) : Option Sprint :=
  db.sprints.find? (fun s => s.id == sid)

/-- `IssueService.get_available_transitions` (`listTransitions` of the spec):
transitions of the issue's project leaving its current status whose role gate
admits the actor. -/
def get_available_transitions (db : DB) (issue : Issue) (uid : Nat) :
    List WorkflowTransition :=
  let user_role := userRole db issue.project_id uid
  let transitions := db.transitions.filter
    (fun t => t.project_id == issue.project_id && t.from_status_id == issue.status_id)
  transitions.filter
    (fun t => t.allowed_roles.isEmpty ||
      (match user_role with
       | some r => t.allowed_roles.contains r
       | none => false))

/-- `IssueService.can_transition`: permissive when the project has no
transitions configured at all; otherwise the matching edge must exist and its
role gate must admit the actor. -/
def can_transition (db : DB) (issue : Issue) (to_status_id : Nat) (uid : Nat) :
    Bool :=
  let has_workflow := db.transitions.any (fun t => t.project_id == issue.project_id)
  if !has_workflow then
    true
  else
    match db.transitions.find?
        (fun t => t.project_id == issue.project_id &&
          t.from_status_id == issue.status_id &&
          t.to_status_id == to_status_id) with
    | none => false
    | some transition =>
      if !transition.allowed_roles.isEmpty then
        match findMembership db issue.project_id uid with
        | none => false
        | some m => transition.allowed_roles.contains m.role
      else true

/-- The three `ValueError` messages `IssueService.execute_transition` can
raise, in source order: status mismatch, wrong project, role denied. -/
inductive TransitionError where
  | statusMismatch
  | wrongProject
  | forbidden
deriving DecidableEq, Repr

/-- `IssueService.execute_transition`: validates current status, project
ownership and the role gate, then sets the issue's status and saves.  It
writes no `ActivityRecord` and publishes no event — the returned `DB` keeps
`activities` and `events` untouched. -/
def execute_transition (db : DB) (issue : Issue) (t : WorkflowTransition)
    (uid : Nat) : Except TransitionError (DB × Issue) :=
  if issue.status_id != t.from_status_id then
    .error .statusMismatch
  else if issue.project_id != t.project_id then
    .error .wrongProject
  else if !t.allowed_roles.isEmpty &&
      (match findMembership db issue.project_id uid with
       | none => true
       | some m => !t.allowed_roles.contains m.role) then
    .error .forbidden
  else
    let issue' := { issue with status_id := t.to_status_id }
    .ok (saveIssue db issue', issue')

/-- Outcome of the HTTP endpoint in `api/issues/workflow.py` (status codes
200 / 400 / 403; the 404 lookups by key happen before the embedded part). -/
inductive EndpointResult where
  | ok (issue : Issue)
  | badRequest
  | forbiddenResp
deriving DecidableEq, Repr

/-- The `execute_transition` endpoint of `api/issues/workflow.py`, after the
issue and transition have been resolved: membership and `can_edit` are
checked here, then the service call's `ValueError` maps to 400. -/
def execute_transition_endpoint (db : DB) (issue : Issue)
    (t : WorkflowTransition) (uid : Nat) : EndpointResult :=
  match findMembership db issue.project_id uid with
  | none => .forbiddenResp
  | some m =>
    if !m.can_edit then .forbiddenResp
    else
      match execute_transition db issue t uid with
      | .ok (_, issue') => .ok issue'
      | .error _ => .badRequest

/-- The `SprintServiceError` / `ValueError` conditions of the sprint and
issue-sprint services, named by the spec's error taxonomy. -/
inductive SprintError where
  | invalidState
  | conflict
  | notFound
deriving DecidableEq, Repr

/-- `sprint.issues`: issues whose sprint foreign key references the sprint. -/
def sprintIssues (db : DB) (sprint : Sprint) : List Issue :=
  db.issues.filter (fun i => i.sprint_id == some sprint.id)

/-- Category of the status referenced by an issue (the
`status__category` join). -/
def statusCategoryOf (db : DB) (status_id : Nat) : Option StatusCategory :=
  (db.statuses.find? (fun s => s.id == status_id)).map (fun s => s.category)

/-- Whether an issue's status sits in the `done` category. -/
def issueIsDone (db : DB) (i : Issue) : Bool :=
  statusCategoryOf db i.status_id == some StatusCategory.done

/-- `SprintService._calculate_story_points`: `Sum("story_points")` over the
sprint's issues, nulls skipped and a null total collapsed to 0. -/
def calculate_story_points (db : DB) (sprint : Sprint) : Nat :=
  ((sprintIssues db sprint).map (fun i => i.story_points.getD 0)).sum

/-- `SprintService._calculate_completed_story_points`: the same sum over the
sprint's issues whose status category is `done`. -/
def calculate_completed_story_points (db : DB) (sprint : Sprint) : Nat :=
  (((sprintIssues db sprint).filter (fun i => issueIsDone db i)).map
    (fun i => i.story_points.getD 0)).sum

/-- `SprintService._check_overlapping_active_sprint` (no exclusion id, as in
the `start_sprint` call site): is there an active sprint of the project? -/
def has_overlapping_active_sprint (db : DB) (pid : Nat) : Bool :=
  db.sprints.any (fun s => s.project_id == pid && s.status == SprintStatus.active)

/-- `SprintService.start_sprint`: only a planned sprint may start, the
project must have no active sprint, then `initial_story_points` is
snapshotted and the status becomes active. -/
def start_sprint (db : DB) (sprint : Sprint) : Except SprintError (DB × Sprint) :=
  if sprint.status != SprintStatus.planned then
    .error .invalidState
  else if has_overlapping_active_sprint db sprint.project_id then
    .error .conflict
  else
    let sprint' := { sprint with
      initial_story_points := some (calculate_story_points db sprint),
      status := SprintStatus.active }
    .ok (saveSprint db sprint', sprint')

/-- The `move_incomplete_to` argument of `complete_sprint`: the literal
`"backlog"` or a target sprint id (absent = `None`). -/
inductive MoveIncompleteTo where
  | backlog
  | toSprint (id : Nat)
deriving DecidableEq, Repr

/-- `SprintService.complete_sprint`: only an active sprint may complete.
`completed_story_points` is snapshotted and the sprint saved as completed
before the incomplete issues are moved; the target lookup therefore sees the
already-saved row.  Raising after the save is rolled back by
`transaction.atomic`, which the `.error` result models. -/
def complete_sprint (db : DB) (sprint : Sprint)
    (move_incomplete_to : Option MoveIncompleteTo) :
    Except SprintError (DB × Sprint) :=
  if sprint.status != SprintStatus.active then
    .error .invalidState
  else
    let sprint' := { sprint with
      completed_story_points :=
        some (calculate_completed_story_points db sprint),
      status := SprintStatus.completed }
    let db1 := saveSprint db sprint'
    let incomplete := fun (i : Issue) =>
      i.sprint_id == some sprint.id && !issueIsDone db i
    match move_incomplete_to with
    | none | some .backlog =>
      let issues' := db1.issues.map
        (fun i => if incomplete i then { i with sprint_id := none } else i)
      .ok ({ db1 with issues := issues' }, sprint')
    | some (.toSprint tid) =>
      match sprintById db1 tid with
      | none => .error .notFound
      | some target =>
        if target.status == SprintStatus.completed then
          .error .conflict
        else
          let issues' := db1.issues.map
            (fun i => if incomplete i then { i with sprint_id := some tid } else i)
          .ok ({ db1 with issues := issues' }, sprint')

/-- Persisted state after a `complete_sprint` request: on an exception the
`transaction.atomic` block rolls every write back, so the caller-visible
state is the pre-call one. -/
def complete_sprint_state (db : DB) (sprint : Sprint)
    (move_incomplete_to : Option MoveIncompleteTo) : DB :=
  match complete_sprint db sprint move_incomplete_to with
  | .ok (db', _) => db'
  | .error _ => db

/-- `IssueService.update_issue_sprint` (`setIssueSprint` of the spec):
clearing the sprint always succeeds; assigning checks that the target sprint
exists, is not completed, and belongs to the issue's project. -/
def update_issue_sprint (db : DB) (issue : Issue) (sprint_id : Option Nat) :
    Except SprintError (DB × Issue) :=
  match sprint_id with
  | none =>
    let issue' := { issue with sprint_id := none }
    .ok (saveIssue db issue', issue')
  | some sid =>
    match sprintById db sid with
    | none => .error .notFound
    | some sprint =>
      if sprint.status == SprintStatus.completed then
        .error .invalidState
      else if sprint.project_id != issue.project_id then
        .error .conflict
      else
        let issue' := { issue with sprint_id := some sid }
        .ok (saveIssue db issue', issue')

/-- Round a rational to one decimal place, `round(x, 1)` on the exact value. -/
def roundTenth (q : ℚ) : ℚ :=
  ((round (10 * q) : ℤ) : ℚ) / 10

/-- The starting value of the burndown: the snapshotted
`initial_story_points` when the sprint was started, else the live current
total. -/
def burndown_initial_sp (db : DB) (sprint : Sprint) : Nat :=
  match sprint.initial_story_points with
  | some sp => sp
  | none => calculate_story_points db sprint

/-- One sample of the ideal burndown line. -/
structure BurndownPoint where
  date : Int
  value : ℚ
deriving DecidableEq, Repr

/-- The ideal-line portion of `SprintService.get_burndown`:
`total_days = (end - start).days + 1`, and one sample per
`day_offset in range(total_days + 1)` with value
`initial_sp * (1 - day_offset / total_days)` rounded to one decimal. -/
def get_burndown_ideal (db : DB) (sprint : Sprint) : List BurndownPoint :=
  let total_days : Nat := (sprint.end_date - sprint.start_date).toNat + 1
  let initial_sp : Nat := burndown_initial_sp db sprint
  (List.range (total_days + 1)).map (fun (day_offset : Nat) =>
    { date := sprint.start_date + (day_offset : Int),
      value := roundTenth ((initial_sp : ℚ) *
        (1 - (day_offset : ℚ) / (total_days : ℚ))) })

/-- `max_connection_time = 3600  # 1 hour max connection` in `api/events.py`. -/
def MAX_CONNECTION_TIME : Nat := 3600

/-- Heartbeat interval of the gateway loop (30 seconds). -/
def HEARTBEAT_INTERVAL : Nat := 30

/-- One iteration of the gateway loop, discretised: `now` is
`time.time() - start_time` at the top of the iteration, `msg` is what
`pubsub.get_message` produced (`none` = wait timed out, `some none` = a
message whose payload fails to parse and is skipped, `some (some e)` = a
broker event), and `disconnected` marks a `GeneratorExit` /
`CancelledError` delivered at the iteration's await point. -/
structure Tick where
  now : Nat
  msg : Option (Option Event)
  disconnected : Bool
deriving DecidableEq, Repr

/-- The SSE messages the gateway can emit. -/
inductive SSE where
  | connected (channels : Nat)
  | heartbeat (t : Nat)
  | timeout
  | eventMsg (e : Event)
  | errorMsg (s : String)
deriving DecidableEq, Repr

/-- The `while True` loop of `event_generator` in `api/events.py`, run over a
finite schedule of iterations.  Each emitted message is tagged with the
elapsed time of its iteration.  The loop stops on client disconnect, or
after emitting the terminal `timeout` message once the maximum connection
lifetime is exceeded; an exhausted schedule models cancellation. -/
def event_loop : List Tick → Nat → List (Nat × SSE)
  | [], _ => []
  | t :: rest, last_heartbeat =>
    if t.disconnected then []
    else if MAX_CONNECTION_TIME < t.now then [(t.now, SSE.timeout)]
    else
      let hb := HEARTBEAT_INTERVAL < t.now - last_heartbeat
      let hbOut := if hb then [(t.now, SSE.heartbeat t.now)] else []
      let lh' := if hb then t.now else last_heartbeat
      match t.msg with
      | none => hbOut ++ event_loop rest lh'
      | some none => hbOut ++ event_loop rest lh'
      | some (some e) => hbOut ++ (t.now, SSE.eventMsg e) :: event_loop rest lh'

/-- Observable outcome of one gateway connection: the tagged output stream,
whether `pubsub.unsubscribe()` ran, and whether the pubsub and redis handles
were closed. -/
structure GenResult where
  output : List (Nat × SSE)
  unsubscribed : Bool
  closed : Bool
deriving DecidableEq, Repr

/-- The subscribed phase of `event_generator`.  `pubsub.subscribe(*channels)`
runs first and the `connected` message is yielded *before* the `try` block is
entered: that yield is a suspension point outside `try … finally`, so a
`GeneratorExit` delivered there (client disconnect at the initial yield,
modelled by `aborted_at_first_yield`) ends the generator without running the
`finally` — the subscription is never released and the handles never closed.
Every later suspension point is inside the `try`, whose `finally` block
unsubscribes and closes the handles on every exit path (timeout break,
disconnect exception, cancellation). -/
def run_subscribed (channels : List Nat) (ticks : List Tick)
    (aborted_at_first_yield : Bool) : GenResult :=
  if aborted_at_first_yield then
    { output := [(0, SSE.connected channels.length)],
      unsubscribed := false,
      closed := false }
  else
    { output := (0, SSE.connected channels.length) :: event_loop ticks 0,
      unsubscribed := true,
      closed := true }

/-- `event_generator` of `api/events.py`: channel selection from the
member-project list and the optional project filter, the two pre-subscribe
error exits, then the subscribed loop.  The error branches yield their error
message and only then close the (never-subscribed) handles, so an abort at
that first yield also skips the closes. -/
def event_generator (member_project_ids : List Nat) (project_filter : Option Nat)
    (ticks : List Tick) (aborted_at_first_yield : Bool) : GenResult :=
  match project_filter with
  | some pid =>
    if member_project_ids.contains pid then
      run_subscribed [pid] ticks aborted_at_first_yield
    else
      { output := [(0, SSE.errorMsg "Access denied to project")],
        unsubscribed := false, closed := !aborted_at_first_yield }
  | none =>
    if member_project_ids.isEmpty then
      { output := [(0, SSE.errorMsg "No projects available")],
        unsubscribed := false, closed := !aborted_at_first_yield }
    else
      run_subscribed member_project_ids ticks aborted_at_first_yield

/-- Boolean success test for an `Except` result. -/
def exceptOk {ε α : Type} : Except ε α → Bool
  | .ok _ => true
  | .error _ => false

/-- Example fixture: "To Do" status of project 10. -/
def exTodo : Status := ⟨1, some 10, "To Do", StatusCategory.todo⟩

/-- Example fixture: "Done" status of project 10. -/
def exDone : Status := ⟨2, some 10, "Done", StatusCategory.done⟩

/-- Example fixture: "In Progress" status of project 10. -/
def exInProgress : Status := ⟨3, some 10, "In Progress", StatusCategory.inProgress⟩

/-- Example fixture: ungated transition To Do → Done in project 10. -/
def exTr : WorkflowTransition := ⟨100, 10, 1, 2, "finish", []⟩

/-- Example fixture: admin-gated transition In Progress → Done in project 10. -/
def exTrGated : WorkflowTransition := ⟨101, 10, 3, 2, "gated finish", ["admin"]⟩

/-- Example fixture: a To Do issue of project 10 in sprint 500, 5 points. -/
def exIssue : Issue := ⟨1000, 10, 1, some 500, some 5⟩

/-- Example fixture: a Done issue of project 10 in sprint 500, 3 points. -/
def exIssueDone : Issue := ⟨1001, 10, 2, some 500, some 3⟩

/-- Example fixture: the active sprint 500 of project 10. -/
def exSprintActive : Sprint :=
  ⟨500, 10, "Sprint 1", 0, 1, SprintStatus.active, some 8, none⟩

/-- Example fixture: a planned sprint of project 10. -/
def exSprintPlanned : Sprint :=
  ⟨501, 10, "Sprint 2", 2, 5, SprintStatus.planned, none, none⟩

/-- Example fixture: a completed sprint of project 10. -/
def exSprintCompleted : Sprint :=
  ⟨502, 10, "Sprint 0", -5, -1, SprintStatus.completed, some 5, some 5⟩

/-- Example fixture: user 1 is a developer of project 10. -/
def exMembership : ProjectMembership := ⟨10, 1, "developer"⟩

/-- Example fixture: the whole database.  User 7 is not a member of any
project. -/
def exDB : DB :=
  { statuses := [exTodo, exDone, exInProgress],
    transitions := [exTr, exTrGated],
    issues := [exIssue, exIssueDone],
    sprints := [exSprintActive, exSprintPlanned, exSprintCompleted],
    memberships := [exMembership],
    activities := [],
    events := [] }

/-- Claim C1: `execute_transition` fails, returning no updated issue, exactly
when the issue's current status differs from the transition's from-status, or
the transition belongs to another project, or the transition is role-gated
and the actor's role in the project is not in the allowed set; otherwise it
succeeds and the saved issue's status is the transition's to-status.  The
first disjunct is precisely the stale-transition (check-then-act race)
failure. -/
theorem role_gate_eq_true (allowed : List String) (mem : Option ProjectMembership) :
    (!allowed.isEmpty &&
      (match mem with
       | none => true
       | some m => !allowed.contains m.role)) = true ↔
    (allowed ≠ [] ∧
      ∀ r, mem.map (fun m => m.role) = some r → r ∉ allowed) := by
  cases mem with
  | none => cases allowed <;> simp
  | some m =>
    cases allowed with
    | nil => simp
    | cons a as =>
      simp only [List.isEmpty_cons, Bool.not_false, Bool.true_and,
        Bool.not_eq_true', Option.map_some', Option.some.injEq, ne_eq]
      constructor
      · intro hb
        refine ⟨by simp, ?_⟩
        rintro r rfl
        intro hmem
        rw [show (a :: as).contains m.role = (a :: as).elem m.role from rfl,
          List.elem_iff.mpr hmem] at hb
        cases hb
      · rintro ⟨-, hall⟩
        have hnm := hall m.role rfl
        rw [show (a :: as).contains m.role = (a :: as).elem m.role from rfl]
        cases hc : (a :: as).elem m.role
        · rfl
        · exact absurd (List.elem_iff.mp hc) hnm

theorem c1_execute_transition_contract (db : DB) (issue : Issue)
    (t : WorkflowTransition) (uid : Nat) :
    ((issue.status_id ≠ t.from_status_id ∨ t.project_id ≠ issue.project_id ∨
        (t.allowed_roles ≠ [] ∧
          ∀ r, userRole db issue.project_id uid = some r → r ∉ t.allowed_roles))
      ↔ ∃ e, execute_transition db issue t uid = Except.error e)
    ∧ (issue.status_id = t.from_status_id → t.project_id = issue.project_id →
        (t.allowed_roles = [] ∨
          ∃ r, userRole db issue.project_id uid = some r ∧ r ∈ t.allowed_roles) →
        execute_transition db issue t uid =
          Except.ok (saveIssue db { issue with status_id := t.to_status_id },
            { issue with status_id := t.to_status_id })) := by
  have hrole := role_gate_eq_true t.allowed_roles (findMembership db issue.project_id uid)
  rw [show (findMembership db issue.project_id uid).map (fun m => m.role) =
    userRole db issue.project_id uid from rfl] at hrole
  by_cases h1 : issue.status_id = t.from_status_id
  · by_cases h2 : issue.project_id = t.project_id
    · have hexec : execute_transition db issue t uid =
          if (!t.allowed_roles.isEmpty &&
              (match findMembership db issue.project_id uid with
               | none => true
               | some m => !t.allowed_roles.contains m.role)) = true
          then Except.error TransitionError.forbidden
          else Except.ok (saveIssue db { issue with status_id := t.to_status_id },
            { issue with status_id := t.to_status_id }) := by
        unfold execute_transition
        rw [if_neg (by simp [h1]), if_neg (by simp [h2])]
      by_cases h3 : (!t.allowed_roles.isEmpty &&
          (match findMembership db issue.project_id uid with
           | none => true
           | some m => !t.allowed_roles.contains m.role)) = true
      · rw [hexec, if_pos h3]
        have h3' := hrole.mp h3
        refine ⟨⟨fun _ => ⟨TransitionError.forbidden, rfl⟩,
          fun _ => Or.inr (Or.inr h3')⟩, ?_⟩
        intro _ _ hperm
        rcases hperm with hnil | ⟨r, hr, hmem⟩
        · exact absurd hnil h3'.1
        · exact absurd hmem (h3'.2 r hr)
      · rw [hexec, if_neg h3]
        have h3' : ¬(t.allowed_roles ≠ [] ∧
            ∀ r, userRole db issue.project_id uid = some r → r ∉ t.allowed_roles) :=
          fun hc => h3 (hrole.mpr hc)
        refine ⟨⟨?_, ?_⟩, fun _ _ _ => rfl⟩
        · rintro (hbad | hbad | hbad)
          · exact absurd h1 hbad
          · exact absurd h2.symm hbad
          · exact absurd hbad h3'
        · rintro ⟨e, he⟩
          cases he
    · have hexec : execute_transition db issue t uid =
          Except.error TransitionError.wrongProject := by
        unfold execute_transition
        rw [if_neg (by simp [h1]), if_pos (by simp only [bne_iff_ne]; exact h2)]
      rw [hexec]
      refine ⟨⟨fun _ => ⟨TransitionError.wrongProject, rfl⟩,
        fun _ => Or.inr (Or.inl (fun hc => h2 hc.symm))⟩, ?_⟩
      intro _ h2' _
      exact absurd h2'.symm h2
  · have hexec : execute_transition db issue t uid =
        Except.error TransitionError.statusMismatch := by
      unfold execute_transition
      rw [if_pos (by simp only [bne_iff_ne]; exact h1)]
    rw [hexec]
    refine ⟨⟨fun _ => ⟨TransitionError.statusMismatch, rfl⟩, fun _ => Or.inl h1⟩, ?_⟩
    intro h1' _ _
    exact absurd h1' h1

/-- Concrete instantiation of `c1_execute_transition_contract`: user 1 runs
the ungated To Do → Done transition on a To Do issue and the saved issue is
Done; hypotheses discharged by evaluation. -/
theorem c1_witness :
    execute_transition exDB exIssue exTr 1 =
      Except.ok (saveIssue exDB { exIssue with status_id := 2 },
        { exIssue with status_id := 2 }) :=
  (c1_execute_transition_contract exDB exIssue exTr 1).2 (by decide) (by decide)
    (Or.inl rfl)

/-- Claim C2 counterexample: a fully successful `execute_transition` call on
the example database appends no `status_changed` `ActivityRecord` and
publishes no `issue.moved` event — the service only saves the status field,
so the claimed audit-and-broadcast step does not happen at a concrete
input. -/
theorem c2_counterexample :
    ∃ db' issue',
      execute_transition exDB exIssue exTr 1 = Except.ok (db', issue') ∧
      issue'.status_id = exTr.to_status_id ∧
      ¬(∃ a ∈ db'.activities, a.action = "status_changed") ∧
      ¬(∃ e ∈ db'.events, e.type = "issue.moved") := by
  refine ⟨saveIssue exDB { exIssue with status_id := 2 },
    { exIssue with status_id := 2 }, rfl, rfl, ?_, ?_⟩
  · rintro ⟨a, ha, -⟩
    simp [saveIssue, exDB] at ha
  · rintro ⟨e, he, -⟩
    simp [saveIssue, exDB] at he

/-- Claim C2 amended: a successful `execute_transition` sets the issue's
status to the transition's to-status and saves it, but appends no
`ActivityRecord` and publishes no event — the activity log and the event
stream are exactly as before the call.  (Status-change auditing and the
`issue.moved` publish happen only in the generic `update_issue` field-edit
path, not in `execute_transition`.) -/
theorem c2_execute_transition_no_audit (db : DB) (issue : Issue)
    (t : WorkflowTransition) (uid : Nat) (db' : DB) (issue' : Issue)
    (h : execute_transition db issue t uid = Except.ok (db', issue')) :
    issue'.status_id = t.to_status_id ∧
    db'.activities = db.activities ∧
    db'.events = db.events ∧
    db'.issues = db.issues.map (fun i => if i.id == issue.id then issue' else i) := by
  unfold execute_transition at h
  split_ifs at h with h1 h2 h3
  all_goals cases h
  all_goals exact ⟨rfl, rfl, rfl, rfl⟩

/-- Concrete instantiation of `c2_execute_transition_no_audit` on the example
database, the success hypothesis discharged by evaluation. -/
theorem c2_witness :
    ({ exIssue with status_id := 2 } : Issue).status_id = exTr.to_status_id ∧
    (saveIssue exDB { exIssue with status_id := 2 }).activities = exDB.activities ∧
    (saveIssue exDB { exIssue with status_id := 2 }).events = exDB.events ∧
    (saveIssue exDB { exIssue with status_id := 2 }).issues =
      exDB.issues.map (fun i => if i.id == exIssue.id then
        { exIssue with status_id := 2 } else i) :=
  c2_execute_transition_no_audit exDB exIssue exTr 1 _ _ rfl

/-- Two workflow transitions with the same (project, from-status, to-status)
key — the `unique_together` constraint of the model forbids a pair of
distinct rows related this way. -/
def sameTriple (a b : WorkflowTransition) : Prop :=
  a.project_id = b.project_id ∧ a.from_status_id = b.from_status_id ∧
    a.to_status_id = b.to_status_id

/-- The `unique_together = ["project", "from_status", "to_status"]` database
invariant on a transition table. -/
def UniqueTriples (l : List WorkflowTransition) : Prop :=
  l.Pairwise (fun a b => ¬ sameTriple a b)

theorem find?_eq_of_uniqueTriples (p : WorkflowTransition → Bool) :
    ∀ (l : List WorkflowTransition), UniqueTriples l →
      ∀ t, t ∈ l → p t = true → (∀ x, p x = true → sameTriple x t) →
      l.find? p = some t := by
  intro l
  induction l with
  | nil => intro _ t ht; cases ht
  | cons a l ih =>
    intro hu t ht hpt himp
    rcases List.pairwise_cons.mp hu with ⟨hhead, htail⟩
    by_cases hpa : p a = true
    · rw [List.find?_cons_of_pos _ hpa]
      rcases List.mem_cons.mp ht with rfl | htl
      · rfl
      · exact absurd (himp a hpa) (hhead t htl)
    · rw [List.find?_cons_of_neg _ (by simpa using hpa)]
      rcases List.mem_cons.mp ht with rfl | htl
      · exact absurd hpt hpa
      · exact ih htail t htl hpt himp

/-- Claim C10 (implicit): with an empty `allowed_roles`, the service layer
performs no membership check — a user with no membership in the issue's
project (`findMembership = none`) still executes the transition successfully
and `can_transition` still answers true; project membership is rejected only
by the HTTP endpoint wrapper, which returns 403 for a non-member. -/
theorem c10_no_membership_check_in_service (db : DB) (issue : Issue)
    (t : WorkflowTransition) (uid : Nat)
    (hroles : t.allowed_roles = [])
    (hnomem : findMembership db issue.project_id uid = none)
    (hstatus : issue.status_id = t.from_status_id)
    (hproj : issue.project_id = t.project_id) :
    execute_transition db issue t uid =
      Except.ok (saveIssue db { issue with status_id := t.to_status_id },
        { issue with status_id := t.to_status_id }) ∧
    execute_transition_endpoint db issue t uid = EndpointResult.forbiddenResp ∧
    (t ∈ db.transitions → UniqueTriples db.transitions →
      can_transition db issue t.to_status_id uid = true) := by
  have hexec : execute_transition db issue t uid =
      Except.ok (saveIssue db { issue with status_id := t.to_status_id },
        { issue with status_id := t.to_status_id }) := by
    unfold execute_transition
    rw [if_neg (by simp [hstatus]), if_neg (by simp [hproj]),
      if_neg (by simp [hroles])]
  refine ⟨hexec, ?_, ?_⟩
  · unfold execute_transition_endpoint
    rw [hnomem]
  · intro hmem huniq
    unfold can_transition
    have hany : db.transitions.any (fun x => x.project_id == issue.project_id) = true :=
      List.any_eq_true.mpr ⟨t, hmem, by simp [hproj]⟩
    rw [hany]
    have hfind : db.transitions.find?
        (fun x => x.project_id == issue.project_id &&
          x.from_status_id == issue.status_id &&
          x.to_status_id == t.to_status_id) = some t := by
      apply find?_eq_of_uniqueTriples _ _ huniq _ hmem
      · simp [hproj, hstatus]
      · intro x hx
        simp only [Bool.and_eq_true, beq_iff_eq] at hx
        exact ⟨hx.1.1.trans hproj, hx.1.2.trans hstatus, hx.2⟩
    simp [hfind, hroles]

/-- Concrete instantiation of `c10_no_membership_check_in_service`: user 7,
member of no project, runs the ungated transition on the example database;
the service succeeds, the endpoint refuses, `can_transition` answers true. -/
theorem c10_witness :
    execute_transition exDB exIssue exTr 7 =
      Except.ok (saveIssue exDB { exIssue with status_id := 2 },
        { exIssue with status_id := 2 }) ∧
    execute_transition_endpoint exDB exIssue exTr 7 = EndpointResult.forbiddenResp ∧
    can_transition exDB exIssue 2 7 = true := by
  have huniq : UniqueTriples exDB.transitions := by
    simp only [UniqueTriples, sameTriple, exDB]
    decide
  have h := c10_no_membership_check_in_service exDB exIssue exTr 7 rfl rfl rfl rfl
  exact ⟨h.1, h.2.1, h.2.2 (by simp [exDB]) huniq⟩

/-- Claim C3: in a project with no configured transitions `can_transition`
answers true for every issue, target status and user (permissive fallback);
in a project with at least one transition it answers true exactly when a
transition from the issue's current status to the target exists in the
project and its role gate is empty or contains the user's role.  The
transition table satisfies the `unique_together` invariant. -/
theorem c3_can_transition_contract (db : DB) (issue : Issue)
    (to_status_id uid : Nat) (huniq : UniqueTriples db.transitions) :
    ((∀ t ∈ db.transitions, t.project_id ≠ issue.project_id) →
      can_transition db issue to_status_id uid = true)
    ∧ ((∃ t ∈ db.transitions, t.project_id = issue.project_id) →
        (can_transition db issue to_status_id uid = true ↔
          ∃ t ∈ db.transitions, t.project_id = issue.project_id ∧
            t.from_status_id = issue.status_id ∧ t.to_status_id = to_status_id ∧
            (t.allowed_roles = [] ∨
              ∃ r, userRole db issue.project_id uid = some r ∧
                r ∈ t.allowed_roles))) := by
  constructor
  · intro hnone
    unfold can_transition
    have hany : db.transitions.any (fun t => t.project_id == issue.project_id) = false := by
      rw [List.any_eq_false]
      intro t ht
      simpa using hnone t ht
    rw [hany]
    simp
  · intro ⟨t₀, ht₀, hp₀⟩
    unfold can_transition
    have hany : db.transitions.any (fun t => t.project_id == issue.project_id) = true :=
      List.any_eq_true.mpr ⟨t₀, ht₀, by simp [hp₀]⟩
    rw [hany]
    simp only [Bool.not_true, Bool.false_eq_true, if_false]
    constructor
    · intro hcan
      rcases hfind : db.transitions.find?
          (fun t => t.project_id == issue.project_id &&
            t.from_status_id == issue.status_id &&
            t.to_status_id == to_status_id) with _ | t
      · rw [hfind] at hcan
        cases hcan
      · rw [hfind] at hcan
        dsimp only at hcan
        have htmem := List.mem_of_find?_eq_some hfind
        have htp := List.find?_some hfind
        simp only [Bool.and_eq_true, beq_iff_eq] at htp
        refine ⟨t, htmem, htp.1.1, htp.1.2, htp.2, ?_⟩
        rcases hroles : t.allowed_roles with _ | ⟨a, as⟩
        · exact Or.inl rfl
        · rw [hroles] at hcan
          rw [if_pos (show ((!(a :: as).isEmpty) = true) from by simp)] at hcan
          rcases hm : findMembership db issue.project_id uid with _ | m
          · rw [hm] at hcan
            cases hcan
          · rw [hm] at hcan
            dsimp only at hcan
            refine Or.inr ⟨m.role, ?_, ?_⟩
            · rw [userRole, hm, Option.map_some']
            · exact List.elem_iff.mp hcan
    · rintro ⟨t, htmem, hp, hf, hto, hrole⟩
      have hfind : db.transitions.find?
          (fun x => x.project_id == issue.project_id &&
            x.from_status_id == issue.status_id &&
            x.to_status_id == to_status_id) = some t := by
        apply find?_eq_of_uniqueTriples _ _ huniq _ htmem
        · simp [hp, hf, hto]
        · intro x hx
          simp only [Bool.and_eq_true, beq_iff_eq] at hx
          exact ⟨hx.1.1.trans hp.symm, hx.1.2.trans hf.symm, hx.2.trans hto.symm⟩
      rw [hfind]
      dsimp only
      rcases hrole with hnil | ⟨r, hur, hrin⟩
      · rw [hnil]
        simp
      · rw [userRole] at hur
        rcases hm : findMembership db issue.project_id uid with _ | m
        · rw [hm] at hur
          cases hur
        · rw [hm, Option.map_some'] at hur
          have hr : m.role = r := Option.some.inj hur
          rcases hroles : t.allowed_roles with _ | ⟨a, as⟩
          · rw [hroles] at hrin
            cases hrin
          · rw [if_pos (show ((!(a :: as).isEmpty) = true) from by simp)]
            dsimp only
            exact List.elem_iff.mpr (hr ▸ (hroles ▸ hrin))

/-- Concrete instantiation of `c3_can_transition_contract`: in the example
database, which has a workflow, the developer user 1 may move the To Do
issue to Done through the ungated transition. -/
theorem c3_witness : can_transition exDB exIssue 2 1 = true := by
  have huniq : UniqueTriples exDB.transitions := by
    simp only [UniqueTriples, sameTriple, exDB]
    decide
  exact ((c3_can_transition_contract exDB exIssue 2 1 huniq).2
    ⟨exTr, by simp [exDB], rfl⟩).mpr
    ⟨exTr, by simp [exDB], rfl, rfl, rfl, Or.inl rfl⟩

/-- Claim C5: `start_sprint` fails with `InvalidState` unless the sprint is
planned (so a second start of the same sprint fails), fails with `Conflict`
when the project already has an active sprint, and otherwise snapshots
`initial_story_points` as the sum of the story points (nulls as 0) of the
issues currently assigned to the sprint and activates it. -/
theorem c5_start_sprint_contract (db : DB) (sprint : Sprint) :
    (sprint.status ≠ SprintStatus.planned →
      start_sprint db sprint = Except.error SprintError.invalidState)
    ∧ (sprint.status = SprintStatus.planned →
        (∃ s ∈ db.sprints, s.project_id = sprint.project_id ∧
          s.status = SprintStatus.active) →
        start_sprint db sprint = Except.error SprintError.conflict)
    ∧ (sprint.status = SprintStatus.planned →
        (∀ s ∈ db.sprints, s.project_id = sprint.project_id →
          s.status ≠ SprintStatus.active) →
        start_sprint db sprint =
          Except.ok (saveSprint db { sprint with
              initial_story_points := some
                (((db.issues.filter (fun i => i.sprint_id == some sprint.id)).map
                  (fun i => i.story_points.getD 0)).sum),
              status := SprintStatus.active },
            { sprint with
              initial_story_points := some
                (((db.issues.filter (fun i => i.sprint_id == some sprint.id)).map
                  (fun i => i.story_points.getD 0)).sum),
              status := SprintStatus.active }))
    ∧ (∀ db' s', start_sprint db sprint = Except.ok (db', s') →
        start_sprint db' s' = Except.error SprintError.invalidState) := by
  refine ⟨?_, ?_, ?_, ?_⟩
  · intro hne
    unfold start_sprint
    rw [if_pos (by simp only [bne_iff_ne]; exact hne)]
  · rintro hpl ⟨s, hs, hsp, hsa⟩
    have hover : has_overlapping_active_sprint db sprint.project_id = true := by
      unfold has_overlapping_active_sprint
      exact List.any_eq_true.mpr ⟨s, hs, by simp [hsp, hsa]⟩
    unfold start_sprint
    rw [if_neg (by simp [hpl]), if_pos hover]
  · intro hpl hnone
    have hover : has_overlapping_active_sprint db sprint.project_id = false := by
      unfold has_overlapping_active_sprint
      rw [List.any_eq_false]
      intro s hs
      simp only [Bool.and_eq_true, beq_iff_eq, not_and]
      exact fun hp => hnone s hs hp
    unfold start_sprint
    rw [if_neg (by simp [hpl]), if_neg (by simp [hover])]
    rfl
  · intro db' s' h
    unfold start_sprint at h
    split_ifs at h
    all_goals cases h
    rfl

/-- Concrete instantiation of `c5_start_sprint_contract`: starting the
planned example sprint while sprint 500 is already active in project 10
fails with `Conflict`. -/
theorem c5_witness :
    start_sprint exDB exSprintPlanned = Except.error SprintError.conflict :=
  (c5_start_sprint_contract exDB exSprintPlanned).2.1 rfl
    ⟨exSprintActive, by simp [exDB], rfl, rfl⟩

theorem move_map_eq (db : DB) (sprint : Sprint) (newsid : Option Nat)
    (l : List Issue) :
    l.map (fun i => if (i.sprint_id == some sprint.id && !issueIsDone db i) = true
      then { i with sprint_id := newsid } else i) =
    l.map (fun i => if i.sprint_id = some sprint.id ∧ issueIsDone db i = false
      then { i with sprint_id := newsid } else i) := by
  apply List.map_congr_left
  intro i _
  by_cases h1 : i.sprint_id = some sprint.id
  · cases h2 : issueIsDone db i
    · rw [if_pos (by simp [h1]), if_pos ⟨h1, rfl⟩]
    · rw [if_neg (by simp), if_neg (by simp)]
  · rw [if_neg (by simp [h1]), if_neg (by simp [h1])]

theorem find?_id_map_replace (l : List Sprint) (sp : Sprint) (tid : Nat)
    (h : tid ≠ sp.id) :
    (l.map (fun s => if s.id == sp.id then sp else s)).find?
      (fun s => s.id == tid) =
    l.find? (fun s => s.id == tid) := by
  induction l with
  | nil => rfl
  | cons a l ih =>
    rw [List.map_cons]
    by_cases ha : a.id = sp.id
    · rw [if_pos (by simp [ha])]
      rw [List.find?_cons_of_neg _ (by simp [Ne.symm h]),
        List.find?_cons_of_neg _ (by simp [ha]; exact Ne.symm h)]
      exact ih
    · rw [if_neg (by simp [ha])]
      by_cases hat : a.id = tid
      · rw [List.find?_cons_of_pos _ (by simp [hat]),
          List.find?_cons_of_pos _ (by simp [hat])]
      · rw [List.find?_cons_of_neg _ (by simp [hat]),
          List.find?_cons_of_neg _ (by simp [hat])]
        exact ih

theorem sprintById_saveSprint_ne (db : DB) (sp : Sprint) (tid : Nat)
    (h : tid ≠ sp.id) :
    sprintById (saveSprint db sp) tid = sprintById db tid := by
  unfold sprintById saveSprint
  exact find?_id_map_replace db.sprints sp tid h

/-- Claim C4: `complete_sprint` fails with `InvalidState` unless the sprint
is active; on success it snapshots `completed_story_points` as the sum of
story points of the sprint's done-category issues and marks the sprint
completed; with `move_incomplete_to` absent or `backlog` every non-done
issue of the sprint loses its sprint reference and every other issue keeps
its row unchanged (done issues keep their sprint); with a target sprint id,
a completed target fails with `Conflict` and otherwise the non-done issues
are reassigned to the target. -/
theorem c4_complete_sprint_contract (db : DB) (sprint : Sprint) :
    (∀ move, sprint.status ≠ SprintStatus.active →
      complete_sprint db sprint move = Except.error SprintError.invalidState)
    ∧ (∀ move, sprint.status = SprintStatus.active →
        (move = none ∨ move = some MoveIncompleteTo.backlog) →
        ∃ db', complete_sprint db sprint move =
            Except.ok (db', { sprint with
              completed_story_points := some
                ((((db.issues.filter (fun i => i.sprint_id == some sprint.id)).filter
                  (fun i => issueIsDone db i)).map
                  (fun i => i.story_points.getD 0)).sum),
              status := SprintStatus.completed }) ∧
          db'.issues = db.issues.map (fun i =>
            if i.sprint_id = some sprint.id ∧ issueIsDone db i = false
            then { i with sprint_id := none } else i))
    ∧ (∀ tid target, sprint.status = SprintStatus.active → tid ≠ sprint.id →
        sprintById db tid = some target →

        ((target.status = SprintStatus.completed →
          complete_sprint db sprint (some (MoveIncompleteTo.toSprint tid)) =
            Except.error SprintError.conflict)
        ∧ (target.status ≠ SprintStatus.completed →
          ∃ db', complete_sprint db sprint (some (MoveIncompleteTo.toSprint tid)) =
              Except.ok (db', { sprint with
                completed_story_points := some
                  ((((db.issues.filter (fun i => i.sprint_id == some sprint.id)).filter
                    (fun i => issueIsDone db i)).map
                    (fun i => i.story_points.getD 0)).sum),
                status := SprintStatus.completed }) ∧
            db'.issues = db.issues.map (fun i =>
              if i.sprint_id = some sprint.id ∧ issueIsDone db i = false
              then { i with sprint_id := some tid } else i)))) := by
  refine ⟨?_, ?_, ?_⟩
  · intro move hne
    unfold complete_sprint
    rw [if_pos (by simp only [bne_iff_ne]; exact hne)]
  · rintro move hact (rfl | rfl)
    · unfold complete_sprint
      rw [if_neg (by simp [hact])]
      exact ⟨_, rfl, move_map_eq db sprint none db.issues⟩
    · unfold complete_sprint
      rw [if_neg (by simp [hact])]
      exact ⟨_, rfl, move_map_eq db sprint none db.issues⟩
  · intro tid target hact htid hmem
    have hbid : sprintById (saveSprint db { sprint with
        completed_story_points := some (calculate_completed_story_points db sprint),
        status := SprintStatus.completed }) tid = some target := by
      rw [sprintById_saveSprint_ne db ({ sprint with
        completed_story_points := some (calculate_completed_story_points db sprint),
        status := SprintStatus.completed }) tid htid]
      exact hmem
    constructor
    · intro hcomp
      unfold complete_sprint
      rw [if_neg (by simp [hact])]
      dsimp only
      rw [hbid]
      dsimp only
      rw [if_pos (by simp [hcomp])]
    · intro hncomp
      unfold complete_sprint
      rw [if_neg (by simp [hact])]
      dsimp only
      rw [hbid]
      dsimp only
      rw [if_neg (by simp [hncomp])]
      exact ⟨_, rfl, move_map_eq db sprint (some tid) db.issues⟩

/-- Concrete instantiation of `c4_complete_sprint_contract`: completing the
active example sprint to the backlog moves the non-done To Do issue out of
the sprint, keeps the done issue's sprint, and snapshots 3 completed story
points. -/
theorem c4_witness :
    ∃ db', complete_sprint exDB exSprintActive (some MoveIncompleteTo.backlog) =
        Except.ok (db', { exSprintActive with
          completed_story_points := some
            ((((exDB.issues.filter (fun i => i.sprint_id == some exSprintActive.id)).filter
              (fun i => issueIsDone exDB i)).map
              (fun i => i.story_points.getD 0)).sum),
          status := SprintStatus.completed }) ∧
      db'.issues = exDB.issues.map (fun i =>
        if i.sprint_id = some exSprintActive.id ∧ issueIsDone exDB i = false
        then { i with sprint_id := none } else i) :=
  (c4_complete_sprint_contract exDB exSprintActive).2.1
    (some MoveIncompleteTo.backlog) rfl (Or.inr rfl)

/-- Claim C6: a rejected mutation changes no persisted state.  When
`complete_sprint` is rejected because the target sprint is completed, the
call raises `Conflict` and — although the sprint row was saved before the
target check inside the transaction — the rollback leaves the caller-visible
state exactly the pre-call one: the sprint is still active with
`completed_story_points` unset and every issue's sprint assignment
unchanged. -/
theorem c6_rejected_complete_is_rolled_back (db : DB) (sprint : Sprint)
    (tid : Nat) (target : Sprint)
    (hact : sprint.status = SprintStatus.active)
    (htid : tid ≠ sprint.id)
    (hmem : sprintById db tid = some target)
    (hcomp : target.status = SprintStatus.completed) :
    complete_sprint db sprint (some (MoveIncompleteTo.toSprint tid)) =
      Except.error SprintError.conflict ∧
    complete_sprint_state db sprint (some (MoveIncompleteTo.toSprint tid)) = db := by
  have herr : complete_sprint db sprint (some (MoveIncompleteTo.toSprint tid)) =
      Except.error SprintError.conflict := by
    have hbid : sprintById (saveSprint db { sprint with
        completed_story_points := some (calculate_completed_story_points db sprint),
        status := SprintStatus.completed }) tid = some target := by
      rw [sprintById_saveSprint_ne db ({ sprint with
        completed_story_points := some (calculate_completed_story_points db sprint),
        status := SprintStatus.completed }) tid htid]
      exact hmem
    unfold complete_sprint
    rw [if_neg (by simp [hact])]
    dsimp only
    rw [hbid]
    dsimp only
    rw [if_pos (by simp [hcomp])]
  refine ⟨herr, ?_⟩
  unfold complete_sprint_state
  rw [herr]

/-- Concrete instantiation of `c6_rejected_complete_is_rolled_back`:
completing the active example sprint into the already-completed sprint 502
fails with `Conflict` and the database is unchanged. -/
theorem c6_witness :
    complete_sprint exDB exSprintActive (some (MoveIncompleteTo.toSprint 502)) =
      Except.error SprintError.conflict ∧
    complete_sprint_state exDB exSprintActive
      (some (MoveIncompleteTo.toSprint 502)) = exDB :=
  c6_rejected_complete_is_rolled_back exDB exSprintActive 502 exSprintCompleted
    rfl (by decide) rfl rfl

/-- Claim C8: `update_issue_sprint` with a null target always succeeds and
clears the issue's sprint; with a target sprint it fails with `InvalidState`
when the target is completed and with `Conflict` when the target belongs to
another project, and only when neither holds does the issue's sprint
reference change to the target. -/
theorem c8_update_issue_sprint_contract (db : DB) (issue : Issue) :
    (update_issue_sprint db issue none =
      Except.ok (saveIssue db { issue with sprint_id := none },
        { issue with sprint_id := none }))
    ∧ (∀ sid target, sprintById db sid = some target →
        ((target.status = SprintStatus.completed →
          update_issue_sprint db issue (some sid) =
            Except.error SprintError.invalidState)
        ∧ (target.status ≠ SprintStatus.completed →
            target.project_id ≠ issue.project_id →
            update_issue_sprint db issue (some sid) =
              Except.error SprintError.conflict)
        ∧ (target.status ≠ SprintStatus.completed →
            target.project_id = issue.project_id →
            update_issue_sprint db issue (some sid) =
              Except.ok (saveIssue db { issue with sprint_id := some sid },
                { issue with sprint_id := some sid }))))
    ∧ (∀ sid db' i', update_issue_sprint db issue (some sid) =
          Except.ok (db', i') →
        ∃ target, sprintById db sid = some target ∧
          target.status ≠ SprintStatus.completed ∧
          target.project_id = issue.project_id ∧
          i' = { issue with sprint_id := some sid }) := by
  refine ⟨rfl, ?_, ?_⟩
  · intro sid target hmem
    refine ⟨?_, ?_, ?_⟩
    · intro hcomp
      unfold update_issue_sprint
      dsimp only
      rw [hmem]
      dsimp only
      rw [if_pos (by simp [hcomp])]
    · intro hncomp hproj
      unfold update_issue_sprint
      dsimp only
      rw [hmem]
      dsimp only
      rw [if_neg (by simp [hncomp]), if_pos (by simp only [bne_iff_ne]; exact hproj)]
    · intro hncomp hproj
      unfold update_issue_sprint
      dsimp only
      rw [hmem]
      dsimp only
      rw [if_neg (by simp [hncomp]), if_neg (by simp [hproj])]
  · intro sid db' i' h
    unfold update_issue_sprint at h
    dsimp only at h
    rcases hfind : sprintById db sid with _ | target
    · rw [hfind] at h
      cases h
    · rw [hfind] at h
      dsimp only at h
      split_ifs at h with h1 h2
      all_goals cases h
      simp only [beq_iff_eq] at h1
      simp only [bne_iff_ne, not_not] at h2
      exact ⟨target, rfl, h1, h2, rfl⟩

/-- Concrete instantiation of `c8_update_issue_sprint_contract`: assigning
the example issue to the completed sprint 502 fails with `InvalidState`. -/
theorem c8_witness :
    update_issue_sprint exDB exIssue (some 502) =
      Except.error SprintError.invalidState :=
  ((c8_update_issue_sprint_contract exDB exIssue).2.1 502
    exSprintCompleted rfl).1 rfl

theorem roundTenth_natCast (n : ℕ) : roundTenth (n : ℚ) = n := by
  unfold roundTenth
  rw [show (10 : ℚ) * n = ((10 * n : ℕ) : ℚ) by push_cast; ring, round_natCast]
  push_cast
  rw [mul_comm, mul_div_assoc]
  norm_num

theorem roundTenth_zero : roundTenth 0 = 0 := by
  unfold roundTenth
  simp

/-- Claim C7 counterexample: for the example sprint (start day 0, end day 1,
`initial_story_points = 8`) the ideal line is `[(0, 8), (1, 4), (2, 0)]` —
three samples for a two-day inclusive span, and no sample on the final day
`end_date = 1` has value 0 (the line reaches 0 only on day 2, one day past
the sprint's final day). -/
theorem c7_counterexample :
    get_burndown_ideal exDB exSprintActive =
      [⟨0, 8⟩, ⟨1, 4⟩, ⟨2, 0⟩] ∧
    ¬((get_burndown_ideal exDB exSprintActive).length =
      (exSprintActive.end_date - exSprintActive.start_date).toNat + 1) ∧
    ¬(∃ p ∈ get_burndown_ideal exDB exSprintActive,
        p.date = exSprintActive.end_date ∧ p.value = 0) := by
  have hlist : get_burndown_ideal exDB exSprintActive =
      [⟨0, 8⟩, ⟨1, 4⟩, ⟨2, 0⟩] := by
    unfold get_burndown_ideal burndown_initial_sp exSprintActive
    dsimp only
    rw [show ((1 : ℤ) - 0).toNat + 1 = 2 from rfl]
    rw [show List.range (2 + 1) = [0, 1, 2] from rfl]
    simp only [List.map_cons, List.map_nil]
    norm_num [BurndownPoint.mk.injEq, roundTenth, round_eq]
  refine ⟨hlist, ?_, ?_⟩
  · rw [hlist]
    decide
  · rw [hlist]
    rintro ⟨p, hp, hd, hv⟩
    simp only [List.mem_cons, List.not_mem_nil, or_false] at hp
    rcases hp with rfl | rfl | rfl
    · simp [exSprintActive] at hd
    · norm_num at hv
    · simp [exSprintActive] at hd

/-- Claim C7 amended: the ideal line of `get_burndown` samples one point per
calendar day from `start_date` through `end_date + 1` — one day past the
sprint's inclusive span, `(end - start) + 2` samples in total — starting at
`initial_story_points` (for a never-started sprint, at the live current
story-point total) on `start_date` and reaching exactly 0 on the day after
`end_date`, for every value of `initial_story_points`. -/
theorem c7_burndown_ideal_amended (db : DB) (sprint : Sprint)
    (h : sprint.start_date < sprint.end_date) :
    (get_burndown_ideal db sprint).length =
      (sprint.end_date - sprint.start_date).toNat + 2 ∧
    (∀ k, ∀ hk : k < (get_burndown_ideal db sprint).length,
      ((get_burndown_ideal db sprint).get ⟨k, hk⟩).date =
        sprint.start_date + k) ∧
    ((get_burndown_ideal db sprint).head?.map (fun p => p.date) =
      some sprint.start_date) ∧
    ((get_burndown_ideal db sprint).head?.map (fun p => p.value) =
      some (burndown_initial_sp db sprint : ℚ)) ∧
    ((get_burndown_ideal db sprint).getLast?.map (fun p => p.date) =
      some (sprint.end_date + 1)) ∧
    ((get_burndown_ideal db sprint).getLast?.map (fun p => p.value) = some 0) ∧
    (sprint.initial_story_points = none →
      burndown_initial_sp db sprint = calculate_story_points db sprint) := by
  have hle : sprint.start_date ≤ sprint.end_date := le_of_lt h
  have htn : (((sprint.end_date - sprint.start_date).toNat : ℤ)) =
      sprint.end_date - sprint.start_date :=
    Int.toNat_of_nonneg (sub_nonneg.mpr hle)
  refine ⟨?_, ?_, ?_, ?_, ?_, ?_, ?_⟩
  · unfold get_burndown_ideal
    dsimp only
    rw [List.length_map, List.length_range]
  · intro k hk
    simp only [get_burndown_ideal, List.get_eq_getElem, List.getElem_map,
      List.getElem_range]
  · unfold get_burndown_ideal
    dsimp only
    rw [List.range_succ_eq_map]
    simp
  · unfold get_burndown_ideal
    dsimp only
    rw [List.range_succ_eq_map]
    simp only [List.map_cons, List.head?_cons, Option.map_some']
    rw [Option.some.injEq]
    norm_num [roundTenth_natCast]
  · unfold get_burndown_ideal
    dsimp only
    rw [List.range_succ, List.map_append]
    simp only [List.map_cons, List.map_nil, List.getLast?_concat, Option.map_some']
    rw [Option.some.injEq]
    push_cast [htn]
    ring
  · unfold get_burndown_ideal
    dsimp only
    rw [List.range_succ, List.map_append]
    simp only [List.map_cons, List.map_nil, List.getLast?_concat, Option.map_some']
    rw [Option.some.injEq]
    rw [div_self (by positivity)]
    simp [roundTenth_zero]
  · intro h0
    unfold burndown_initial_sp
    rw [h0]

/-- Concrete instantiation of `c7_burndown_ideal_amended` on the example
sprint: three samples, and the last sample's value is exactly 0. -/
theorem c7_witness :
    (get_burndown_ideal exDB exSprintActive).length =
      (exSprintActive.end_date - exSprintActive.start_date).toNat + 2 ∧
    (get_burndown_ideal exDB exSprintActive).getLast?.map (fun p => p.value) =
      some 0 :=
  ⟨(c7_burndown_ideal_amended exDB exSprintActive (by decide)).1,
   (c7_burndown_ideal_amended exDB exSprintActive (by decide)).2.2.2.2.2.1⟩

theorem event_loop_event_le (ticks : List Tick) :
    ∀ (lh τ : Nat) (e : Event), (τ, SSE.eventMsg e) ∈ event_loop ticks lh →
      τ ≤ MAX_CONNECTION_TIME := by
  induction ticks with
  | nil =>
    intro lh τ e hmem
    simp [event_loop] at hmem
  | cons t rest ih =>
    intro lh τ e hmem
    rw [event_loop] at hmem
    by_cases hd : t.disconnected
    · rw [if_pos hd] at hmem
      simp at hmem
    · rw [if_neg hd] at hmem
      by_cases hexp : MAX_CONNECTION_TIME < t.now
      · rw [if_pos hexp] at hmem
        simp at hmem
      · rw [if_neg hexp] at hmem
        dsimp only at hmem
        have hhb : ∀ p, p ∈ (if HEARTBEAT_INTERVAL < t.now - lh
            then [(t.now, SSE.heartbeat t.now)] else []) →
            p ≠ (τ, SSE.eventMsg e) := by
          intro p hp
          by_cases hb : HEARTBEAT_INTERVAL < t.now - lh
          · rw [if_pos hb] at hp
            simp only [List.mem_singleton] at hp
            subst hp
            simp
          · rw [if_neg hb] at hp
            simp at hp
        rcases hmsg : t.msg with _ | mo
        · rw [hmsg] at hmem
          rcases List.mem_append.mp hmem with h1 | h2
          · exact absurd rfl (hhb _ h1)
          · exact ih _ τ e h2
        · rcases mo with _ | ev
          · rw [hmsg] at hmem
            rcases List.mem_append.mp hmem with h1 | h2
            · exact absurd rfl (hhb _ h1)
            · exact ih _ τ e h2
          · rw [hmsg] at hmem
            rcases List.mem_append.mp hmem with h1 | h2
            · exact absurd rfl (hhb _ h1)
            · rcases List.mem_cons.mp h2 with heq | h3
              · have : τ = t.now := congrArg Prod.fst heq
                rw [this]
                exact le_of_not_lt hexp
              · exact ih _ τ e h3

/-- A message list in which a `timeout` message, if present, is the final
message. -/
def TimeoutTerminal (l : List (Nat × SSE)) : Prop :=
  ∀ l₁ τ l₂, l = l₁ ++ (τ, SSE.timeout) :: l₂ → l₂ = []

theorem timeoutTerminal_nil : TimeoutTerminal [] := by
  intro l₁ τ l₂ h
  exact absurd h.symm (by simp)

theorem timeoutTerminal_single (x : Nat × SSE) : TimeoutTerminal [x] := by
  intro l₁ τ l₂ h
  cases l₁ with
  | nil =>
    simp only [List.nil_append, List.cons.injEq] at h
    exact h.2.symm
  | cons a l₁ =>
    simp only [List.cons_append, List.cons.injEq] at h
    exact absurd h.2.symm (by simp)

theorem timeoutTerminal_cons (x : Nat × SSE) (l : List (Nat × SSE))
    (hx : x.2 ≠ SSE.timeout) (hl : TimeoutTerminal l) :
    TimeoutTerminal (x :: l) := by
  intro l₁ τ l₂ h
  cases l₁ with
  | nil =>
    simp only [List.nil_append, List.cons.injEq] at h
    exact absurd (congrArg Prod.snd h.1) hx
  | cons a l₁ =>
    simp only [List.cons_append, List.cons.injEq] at h
    exact hl l₁ τ l₂ h.2

theorem timeoutTerminal_append_left (l₀ l : List (Nat × SSE))
    (h₀ : ∀ p ∈ l₀, p.2 ≠ SSE.timeout) (hl : TimeoutTerminal l) :
    TimeoutTerminal (l₀ ++ l) := by
  induction l₀ with
  | nil => simpa using hl
  | cons a l₀ ih =>
    rw [List.cons_append]
    exact timeoutTerminal_cons a _ (h₀ a (List.mem_cons_self a l₀))
      (ih (fun p hp => h₀ p (List.mem_cons_of_mem a hp)))

theorem event_loop_timeoutTerminal (ticks : List Tick) :
    ∀ lh, TimeoutTerminal (event_loop ticks lh) := by
  induction ticks with
  | nil =>
    intro lh
    rw [event_loop]
    exact timeoutTerminal_nil
  | cons t rest ih =>
    intro lh
    rw [event_loop]
    by_cases hd : t.disconnected
    · rw [if_pos hd]
      exact timeoutTerminal_nil
    · rw [if_neg hd]
      by_cases hexp : MAX_CONNECTION_TIME < t.now
      · rw [if_pos hexp]
        exact timeoutTerminal_single _
      · rw [if_neg hexp]
        dsimp only
        have hhb : ∀ p, p ∈ (if HEARTBEAT_INTERVAL < t.now - lh
            then [(t.now, SSE.heartbeat t.now)] else []) →
            p.2 ≠ SSE.timeout := by
          intro p hp
          by_cases hb : HEARTBEAT_INTERVAL < t.now - lh
          · rw [if_pos hb] at hp
            simp only [List.mem_singleton] at hp
            subst hp
            simp
          · rw [if_neg hb] at hp
            simp at hp
        rcases hmsg : t.msg with _ | mo
        · exact timeoutTerminal_append_left _ _ hhb (ih _)
        · rcases mo with _ | ev
          · exact timeoutTerminal_append_left _ _ hhb (ih _)
          · exact timeoutTerminal_append_left _ _ hhb
              (timeoutTerminal_cons _ _ (by simp) (ih _))

/-- Claim C9 counterexample: a member of project 1 connects, the
subscription is established and the `connected` message yielded, and the
client disconnect is delivered while the generator is suspended at exactly
that yield — which sits after `pubsub.subscribe` but before the
`try … finally`.  The connection ends with the subscription never released
and the handles never closed: an exit path with no cleanup, refuting
"unsubscribes and releases its broker handle on every exit path" at a
concrete input. -/
theorem c9_counterexample :
    (event_generator [1] none [] true).output = [(0, SSE.connected 1)] ∧
    (event_generator [1] none [] true).unsubscribed = false ∧
    (event_generator [1] none [] true).closed = false :=
  ⟨rfl, rfl, rfl⟩

/-- Claim C9 amended: every gateway connection (i) never streams a broker
event at an elapsed time past the maximum connection lifetime; (ii) a
`timeout` message, once emitted, is terminal; (iii) at the first iteration
whose elapsed time exceeds the lifetime the loop emits exactly the terminal
`timeout` message and stops, whatever the remaining schedule; and (iv)
cleanup runs on every exit path that reaches the streaming loop — timeout,
disconnect during the loop, cancellation — the handles being closed, and the
subscription released whenever it was established; EXCEPT that a client
disconnect delivered at the initial yield (the `connected` message, emitted
between `subscribe` and the `try` block, or a pre-subscribe error message,
emitted before the handle closes) skips the cleanup: the handles stay open
and an established subscription leaks. -/
theorem c9_gateway_lifetime_and_cleanup_amended (members : List Nat)
    (pf : Option Nat) (ticks : List Tick) (aborted : Bool) :
    (event_generator members pf ticks aborted).closed = !aborted ∧
    ((∃ c, (0, SSE.connected c) ∈
        (event_generator members pf ticks aborted).output) →
      (event_generator members pf ticks aborted).unsubscribed = !aborted) ∧
    (∀ τ e, (τ, SSE.eventMsg e) ∈
        (event_generator members pf ticks aborted).output →
      τ ≤ MAX_CONNECTION_TIME) ∧
    TimeoutTerminal (event_generator members pf ticks aborted).output ∧
    (∀ (t : Tick) (rest : List Tick) (lh : Nat), t.disconnected = false →
      MAX_CONNECTION_TIME < t.now →
      event_loop (t :: rest) lh = [(t.now, SSE.timeout)]) := by
  refine ⟨?_, ?_, ?_, ?_, ?_⟩
  · unfold event_generator
    cases pf with
    | none =>
      dsimp only
      by_cases h : members.isEmpty
      · rw [if_pos h]
      · rw [if_neg h]
        unfold run_subscribed
        cases aborted
        · rw [if_neg (by simp)]
          rfl
        · rw [if_pos rfl]
          rfl
    | some pid =>
      dsimp only
      by_cases h : members.contains pid
      · rw [if_pos h]
        unfold run_subscribed
        cases aborted
        · rw [if_neg (by simp)]
          rfl
        · rw [if_pos rfl]
          rfl
      · rw [if_neg h]
  · rintro ⟨c, hc⟩
    unfold event_generator at hc ⊢
    cases pf with
    | none =>
      dsimp only at hc ⊢
      by_cases h : members.isEmpty
      · rw [if_pos h] at hc
        simp at hc
      · rw [if_neg h]
        unfold run_subscribed
        cases aborted
        · rw [if_neg (by simp)]
          rfl
        · rw [if_pos rfl]
          rfl
    | some pid =>
      dsimp only at hc ⊢
      by_cases h : members.contains pid
      · rw [if_pos h]
        unfold run_subscribed
        cases aborted
        · rw [if_neg (by simp)]
          rfl
        · rw [if_pos rfl]
          rfl
      · rw [if_neg h] at hc
        simp at hc
  · intro τ e hmem
    unfold event_generator at hmem
    cases pf with
    | none =>
      dsimp only at hmem
      by_cases h : members.isEmpty
      · rw [if_pos h] at hmem
        simp at hmem
      · rw [if_neg h] at hmem
        unfold run_subscribed at hmem
        cases aborted
        · rw [if_neg (by simp)] at hmem
          rcases List.mem_cons.mp hmem with heq | h2
          · exact absurd (congrArg Prod.snd heq) (by simp)
          · exact event_loop_event_le ticks 0 τ e h2
        · rw [if_pos rfl] at hmem
          simp at hmem
    | some pid =>
      dsimp only at hmem
      by_cases h : members.contains pid
      · rw [if_pos h] at hmem
        unfold run_subscribed at hmem
        cases aborted
        · rw [if_neg (by simp)] at hmem
          rcases List.mem_cons.mp hmem with heq | h2
          · exact absurd (congrArg Prod.snd heq) (by simp)
          · exact event_loop_event_le ticks 0 τ e h2
        · rw [if_pos rfl] at hmem
          simp at hmem
      · rw [if_neg h] at hmem
        simp at hmem
  · unfold event_generator
    cases pf with
    | none =>
      dsimp only
      by_cases h : members.isEmpty
      · rw [if_pos h]
        exact timeoutTerminal_single _
      · rw [if_neg h]
        unfold run_subscribed
        cases aborted
        · rw [if_neg (by simp)]
          exact timeoutTerminal_cons _ _ (by simp)
            (event_loop_timeoutTerminal ticks 0)
        · rw [if_pos rfl]
          exact timeoutTerminal_single _
    | some pid =>
      dsimp only
      by_cases h : members.contains pid
      · rw [if_pos h]
        unfold run_subscribed
        cases aborted
        · rw [if_neg (by simp)]
          exact timeoutTerminal_cons _ _ (by simp)
            (event_loop_timeoutTerminal ticks 0)
        · rw [if_pos rfl]
          exact timeoutTerminal_single _
      · rw [if_neg h]
        exact timeoutTerminal_single _
  · intro t rest lh hd hexp
    rw [event_loop, if_neg (by simp [hd]), if_pos hexp]

/-- Example fixture: an `issue.moved` event of project 10. -/
def exEvent : Event := ⟨"issue.moved", 10, []⟩

/-- Concrete instantiation of `c9_gateway_lifetime_and_cleanup_amended`: a
member of project 1 connects without a first-yield abort, one broker event
arrives 5 seconds in; the subscription is released and the event was
streamed within the lifetime. -/
theorem c9_witness :
    (event_generator [1] none [⟨5, some (some exEvent), false⟩]
      false).unsubscribed = true ∧
    (5 : Nat) ≤ MAX_CONNECTION_TIME :=
  ⟨(c9_gateway_lifetime_and_cleanup_amended [1] none
      [⟨5, some (some exEvent), false⟩] false).2.1 ⟨1, by decide⟩,
   (c9_gateway_lifetime_and_cleanup_amended [1] none
      [⟨5, some (some exEvent), false⟩] false).2.2.1 5 exEvent (by decide)⟩

end CTrack

